import Mathlib

/-!
# Formal model of the ecef-utilities library

Shallow embedding, over the exact reals, of the TypeScript modules
constants.ts, utils.ts and ecef_uilts.ts (current revisions: the ECEF
module with ENU support and unrounded transforms, the utils module whose
trimDecimalValue truncates the digit count and treats non-positive digit
counts as round-to-integer, and the hypot polyfill), together with
theorems checking the specification claims against this model.

Modelling conventions:
- A JS number is modelled as a real number.  Arithmetic on finite doubles
  is modelled by exact real arithmetic.
- JS division agrees with real-field division whenever the divisor is
  nonzero.  Where a claim depends on the IEEE zero-divisor behaviour of
  Math.atan(y / x) (the heading computation), the embedding makes that
  behaviour explicit: see jsAtanDiv, whose none value models NaN.
  ECEFToLLA also contains Math.atan(y / x); it is embedded with total real
  division (so it is faithful for x nonzero, and every theorem below
  evaluates it only at x nonzero); the x = 0 edge case is not the subject
  of any claim.
- The hypot polyfill's final check (max === 1/0, guarding IEEE infinity)
  cannot fire on finite inputs and is omitted: real numbers are finite.
-/

noncomputable section

namespace EcefUtils

/-! ## constants.ts -/

/-- constants.ts: equatorial radius of the WGS84 ellipsoid in meters. -/
def RADIUS : ℝ := 6378137

/-- constants.ts: flattening of the WGS84 ellipsoid. -/
def FLATTENING : ℝ := 1 / 298.257223563

/-- constants.ts: polar radius, RADIUS * (1 - FLATTENING). -/
def POLAR_RADIUS : ℝ := RADIUS * (1 - FLATTENING)

/-- constants.ts: first eccentricity, sqrt((R^2 - b^2) / R^2). -/
def FIRST_ECCENTRICITY : ℝ :=
  Real.sqrt ((RADIUS ^ 2 - POLAR_RADIUS ^ 2) / RADIUS ^ 2)

/-- constants.ts: second eccentricity, sqrt((R^2 - b^2) / b^2). -/
def SECOND_ECCENTRICITY : ℝ :=
  Real.sqrt ((RADIUS ^ 2 - POLAR_RADIUS ^ 2) / POLAR_RADIUS ^ 2)

/-! ## utils.ts -/

/-- utils.ts: degree to radian conversion. -/
def degToRad (deg : ℝ) : ℝ := deg * Real.pi / 180

/-- utils.ts: radian to degree conversion. -/
def radToDeg (rad : ℝ) : ℝ := rad * 180 / Real.pi

/-- JS Math.trunc on a finite real: drop the fractional part (round toward zero). -/
def jsTrunc (x : ℝ) : ℤ := if 0 ≤ x then ⌊x⌋ else ⌈x⌉

/-- JS Math.round on a finite real: floor(x + 1/2). -/
def jsRound (x : ℝ) : ℝ := (⌊x + 1 / 2⌋ : ℤ)

/-- utils.ts: trimDecimalValue.  Truncates the digit count to an integer;
for a positive count, rounds value * 10^digits and divides back; otherwise
returns Math.round(value). -/
def trimDecimalValue (value significantDigits : ℝ) : ℝ :=
  let sigDigits := jsTrunc significantDigits
  if 0 < sigDigits then
    let multiplier := (10 : ℝ) ^ sigDigits.toNat
    jsRound (value * multiplier) / multiplier
  else
    jsRound value

/-- Loop state of the hypot polyfill: the running maximum of the absolute
values seen so far, and the running sum of squared ratios. -/
structure HypotState where
  max : ℝ
  s : ℝ

/-- One iteration of the hypot polyfill loop body. -/
def hypotStep (st : HypotState) (v : ℝ) : HypotState :=
  let arg := |v|
  let st1 :=
    if st.max < arg then HypotState.mk arg (st.s * (st.max / arg * (st.max / arg)))
    else st
  HypotState.mk st1.max
    (st1.s + if arg = 0 ∧ st1.max = 0 then 0 else arg / st1.max * (arg / st1.max))

/-- utils.ts: the Math.hypot polyfill, folded over the argument list.
The source's final check (max === 1/0) guards IEEE infinity and cannot
fire on finite inputs, so it is omitted here. -/
def hypot (values : List ℝ) : ℝ :=
  let st := values.foldl hypotStep (HypotState.mk 0 0)
  st.max * Real.sqrt st.s

/-! ## ecef_uilts.ts: data types -/

/-- Earth Centered Earth Fixed point, coordinates in meters. -/
@[ext] structure ECEFPoint where
  x : ℝ
  y : ℝ
  z : ℝ

/-- Latitude (degrees), longitude (degrees), altitude (meters) point. -/
@[ext] structure LLAPoint where
  lat : ℝ
  lon : ℝ
  alt : ℝ

/-- ECEF velocity components. -/
@[ext] structure ECEFVelocity where
  vx : ℝ
  vy : ℝ
  vz : ℝ

/-- Tangent-plane velocity capability: the shared North and East components. -/
@[ext] structure tanVelocity where
  vn : ℝ
  ve : ℝ

/-- North East Down velocity. -/
@[ext] structure NEDVelocity where
  vn : ℝ
  ve : ℝ
  vd : ℝ

/-- East North Up velocity. -/
@[ext] structure ENUVelocity where
  vn : ℝ
  ve : ℝ
  vu : ℝ

/-- The structural-subtyping projection of an NED velocity to the shared
tangent-velocity components (TS: NEDVelocity = tanVelocity & down part). -/
def NEDVelocity.toTan (v : NEDVelocity) : tanVelocity := tanVelocity.mk v.vn v.ve

/-- The structural-subtyping projection of an ENU velocity to the shared
tangent-velocity components (TS: ENUVelocity = tanVelocity & up part). -/
def ENUVelocity.toTan (v : ENUVelocity) : tanVelocity := tanVelocity.mk v.vn v.ve

/-! ## ecef_uilts.ts: functions -/

/-- ecef_uilts.ts: radius of curvature of the WGS84 ellipsoid at a latitude
given in radians. -/
def radiusOfCurvature (latRad : ℝ) : ℝ :=
  RADIUS / Real.sqrt (1 - FIRST_ECCENTRICITY ^ 2 * Real.sin latRad ^ 2)

/-- ecef_uilts.ts: project a lat, lon, alt point to ECEF x, y, z. -/
def LLAToECEF (llaPt : LLAPoint) : ECEFPoint :=
  let latRad := degToRad llaPt.lat
  let lonRad := degToRad llaPt.lon
  let N := radiusOfCurvature latRad
  let x := (N + llaPt.alt) * Real.cos latRad * Real.cos lonRad
  let y := (N + llaPt.alt) * Real.cos latRad * Real.sin lonRad
  let z := (N * (POLAR_RADIUS ^ 2 / RADIUS ^ 2) + llaPt.alt) * Real.sin latRad
  ECEFPoint.mk x y z

/-- ecef_uilts.ts: project an ECEF x, y, z point to lat, lon, alt, by the
closed-form (non-iterative) inverse.  The longitude line is the source's
single-argument Math.atan(y / x); it is embedded with total real division
and is faithful for x nonzero (see the module comment). -/
def ECEFToLLA (ecefPt : ECEFPoint) : LLAPoint :=
  let p := hypot [ecefPt.x, ecefPt.y]
  let theta := Real.arctan (ecefPt.z * RADIUS / (p * POLAR_RADIUS))
  let lonRad := Real.arctan (ecefPt.y / ecefPt.x)
  let num := ecefPt.z + SECOND_ECCENTRICITY ^ 2 * POLAR_RADIUS * Real.sin theta ^ 3
  let den := p - FIRST_ECCENTRICITY ^ 2 * RADIUS * Real.cos theta ^ 3
  let latRad := Real.arctan (num / den)
  let N := radiusOfCurvature latRad
  let alt := p / Real.cos latRad - N
  LLAPoint.mk (radToDeg latRad) (radToDeg lonRad) alt

/-- ecef_uilts.ts: rotate ECEF velocity components into North East Down
components at a reference latitude and longitude given in degrees. -/
def ECEFToNED (ecefVel : ECEFVelocity) (lat lon : ℝ) : NEDVelocity :=
  let latRad := degToRad lat
  let lonRad := degToRad lon
  let vn := -ecefVel.vx * Real.sin latRad * Real.cos lonRad -
    ecefVel.vy * Real.sin latRad * Real.sin lonRad + ecefVel.vz * Real.cos latRad
  let ve := -ecefVel.vx * Real.sin lonRad + ecefVel.vy * Real.cos lonRad
  let vd := -ecefVel.vx * Real.cos latRad * Real.cos lonRad -
    ecefVel.vy * Real.cos latRad * Real.sin lonRad - ecefVel.vz * Real.sin latRad
  NEDVelocity.mk vn ve vd

/-- ecef_uilts.ts: rotate North East Down velocity components back into
ECEF components (transpose of the ECEFToNED direction cosine matrix). -/
def NEDtoECEF (nedVel : NEDVelocity) (lat lon : ℝ) : ECEFVelocity :=
  let latRad := degToRad lat
  let lonRad := degToRad lon
  let vx := -(nedVel.vn * (Real.sin latRad * Real.cos lonRad)) -
    nedVel.ve * Real.sin lonRad - nedVel.vd * (Real.cos latRad * Real.cos lonRad)
  let vy := -(nedVel.vn * (Real.sin latRad * Real.sin lonRad)) +
    nedVel.ve * Real.cos lonRad - nedVel.vd * (Real.cos latRad * Real.sin lonRad)
  let vz := nedVel.vn * Real.cos latRad - nedVel.vd * Real.sin latRad
  ECEFVelocity.mk vx vy vz

/-- ecef_uilts.ts: ground speed of a tangent-plane velocity. -/
def getGroundSpeed (tanVel : tanVelocity) : ℝ := hypot [tanVel.vn, tanVel.ve]

/-- JS evaluation of Math.atan(y / x) on finite reals without negative zero:
for x nonzero it is arctan (y / x); for x = 0 the IEEE quotient is plus or
minus infinity (or NaN when y = 0 too) and Math.atan maps it to plus or
minus pi/2 (or NaN).  none models NaN. -/
def jsAtanDiv (y x : ℝ) : Option ℝ :=
  if x = 0 then
    if 0 < y then some (Real.pi / 2)
    else if y < 0 then some (-(Real.pi / 2))
    else none
  else some (Real.arctan (y / x))

/-- ecef_uilts.ts: heading of a tangent-plane velocity, in degrees from
North; atan(ve / vn) converted to degrees, plus 360 when negative.  A NaN
result (modelled by none) propagates: NaN is not below 0, and the source
returns it unchanged. -/
def getHeading (tanVel : tanVelocity) : Option ℝ :=
  (jsAtanDiv tanVel.ve tanVel.vn).map fun headingRad =>
    let heading := radToDeg headingRad
    if heading < 0 then heading + 360 else heading

/-! ## Basic lemmas about the numeric utilities -/

theorem radToDeg_zero : radToDeg 0 = 0 := by
  simp [radToDeg]

theorem radToDeg_pi_div_two : radToDeg (Real.pi / 2) = 90 := by
  rw [radToDeg]
  field_simp
  ring

theorem radToDeg_neg_pi_div_two : radToDeg (-(Real.pi / 2)) = -90 := by
  rw [radToDeg]
  field_simp
  ring

theorem radToDeg_lt_90 {r : ℝ} (h : r < Real.pi / 2) : radToDeg r < 90 := by
  rw [radToDeg, div_lt_iff₀ Real.pi_pos]
  nlinarith [Real.pi_pos]

theorem neg_90_lt_radToDeg {r : ℝ} (h : -(Real.pi / 2) < r) : -90 < radToDeg r := by
  rw [radToDeg, lt_div_iff₀ Real.pi_pos]
  nlinarith [Real.pi_pos]

theorem hypotStep_zero_zero : hypotStep (HypotState.mk 0 0) 0 = HypotState.mk 0 0 := by
  simp [hypotStep]

theorem hypotStep_zero_ne (a : ℝ) (ha : a ≠ 0) :
    hypotStep (HypotState.mk 0 0) a = HypotState.mk |a| 1 := by
  have h1 : (0 : ℝ) < |a| := abs_pos.mpr ha
  have h2 : |a| ≠ 0 := ne_of_gt h1
  simp [hypotStep, if_pos h1, h2, div_self, ha]

theorem hypotStep_lt_max (m b : ℝ) (hm : 0 < m) (h : m < |b|) :
    hypotStep (HypotState.mk m 1) b = HypotState.mk |b| (m / |b| * (m / |b|) + 1) := by
  have hb : |b| ≠ 0 := ne_of_gt (lt_trans hm h)
  simp [hypotStep, if_pos h, hb, div_self]

theorem hypotStep_le_max (m b : ℝ) (hm : 0 < m) (h : |b| ≤ m) :
    hypotStep (HypotState.mk m 1) b = HypotState.mk m (1 + |b| / m * (|b| / m)) := by
  have hm0 : m ≠ 0 := ne_of_gt hm
  simp [hypotStep, if_neg (not_lt.mpr h), hm0]

/-- On two finite arguments the hypot polyfill computes the exact
Euclidean norm (over the reals; no overflow or rounding exists here). -/
theorem hypot_pair (a b : ℝ) : hypot [a, b] = Real.sqrt (a ^ 2 + b ^ 2) := by
  rcases eq_or_ne a 0 with ha | ha
  · subst ha
    rcases eq_or_ne b 0 with hb | hb
    · subst hb
      simp only [hypot, List.foldl, hypotStep_zero_zero]
      norm_num
    · simp only [hypot, List.foldl, hypotStep_zero_zero, hypotStep_zero_ne b hb]
      rw [Real.sqrt_one]
      rw [show (0 : ℝ) ^ 2 + b ^ 2 = b ^ 2 by ring, Real.sqrt_sq_eq_abs]
      ring
  · have ha1 : (0 : ℝ) < |a| := abs_pos.mpr ha
    rcases lt_or_le |a| |b| with hab | hab
    · have hb : b ≠ 0 := by
        intro h0
        rw [h0, abs_zero] at hab
        linarith
      have hbne : |b| ≠ 0 := ne_of_gt (lt_trans ha1 hab)
      simp only [hypot, List.foldl, hypotStep_zero_ne a ha, hypotStep_lt_max |a| b ha1 hab]
      calc |b| * Real.sqrt (|a| / |b| * (|a| / |b|) + 1)
          = Real.sqrt (b ^ 2) * Real.sqrt (|a| / |b| * (|a| / |b|) + 1) := by
            rw [Real.sqrt_sq_eq_abs]
        _ = Real.sqrt (b ^ 2 * (|a| / |b| * (|a| / |b|) + 1)) :=
            (Real.sqrt_mul (sq_nonneg b) _).symm
        _ = Real.sqrt (a ^ 2 + b ^ 2) := by
            congr 1
            have hq : |a| / |b| * (|a| / |b|) = a ^ 2 / b ^ 2 := by
              rw [div_mul_div_comm, abs_mul_abs_self, abs_mul_abs_self]
              ring_nf
            rw [hq]
            field_simp
    · simp only [hypot, List.foldl, hypotStep_zero_ne a ha, hypotStep_le_max |a| b ha1 hab]
      calc |a| * Real.sqrt (1 + |b| / |a| * (|b| / |a|))
          = Real.sqrt (a ^ 2) * Real.sqrt (1 + |b| / |a| * (|b| / |a|)) := by
            rw [Real.sqrt_sq_eq_abs]
        _ = Real.sqrt (a ^ 2 * (1 + |b| / |a| * (|b| / |a|))) :=
            (Real.sqrt_mul (sq_nonneg a) _).symm
        _ = Real.sqrt (a ^ 2 + b ^ 2) := by
            congr 1
            have hq : |b| / |a| * (|b| / |a|) = b ^ 2 / a ^ 2 := by
              rw [div_mul_div_comm, abs_mul_abs_self, abs_mul_abs_self]
              ring_nf
            rw [hq]
            field_simp

/-! ## Lemmas about the ellipsoid constants -/

theorem first_ecc_sq_eq :
    FIRST_ECCENTRICITY ^ 2 = (RADIUS ^ 2 - POLAR_RADIUS ^ 2) / RADIUS ^ 2 := by
  rw [FIRST_ECCENTRICITY, Real.sq_sqrt]
  norm_num [RADIUS, POLAR_RADIUS, FLATTENING]

theorem first_ecc_sq_lt_one : FIRST_ECCENTRICITY ^ 2 < 1 := by
  rw [first_ecc_sq_eq]
  norm_num [RADIUS, POLAR_RADIUS, FLATTENING]

/-! ## Heading lemmas -/

theorem getHeading_eq_of_vn_ne {t : tanVelocity} (hvn : t.vn ≠ 0) :
    getHeading t =
      some (if radToDeg (Real.arctan (t.ve / t.vn)) < 0 then
          radToDeg (Real.arctan (t.ve / t.vn)) + 360
        else radToDeg (Real.arctan (t.ve / t.vn))) := by
  simp only [getHeading, jsAtanDiv, if_neg hvn, Option.map_some']

theorem getHeading_vn_zero_pos {t : tanVelocity} (hvn : t.vn = 0) (hve : 0 < t.ve) :
    getHeading t = some 90 := by
  simp only [getHeading, jsAtanDiv, if_pos hvn, if_pos hve, Option.map_some']
  rw [radToDeg_pi_div_two]
  norm_num

theorem getHeading_vn_zero_neg {t : tanVelocity} (hvn : t.vn = 0) (hve : t.ve < 0) :
    getHeading t = some 270 := by
  simp only [getHeading, jsAtanDiv, if_pos hvn, if_neg (not_lt.mpr hve.le), if_pos hve,
    Option.map_some']
  rw [radToDeg_neg_pi_div_two]
  norm_num

theorem getHeading_zero_zero {t : tanVelocity} (hvn : t.vn = 0) (hve : t.ve = 0) :
    getHeading t = none := by
  simp [getHeading, jsAtanDiv, hvn, hve]

theorem getHeading_mem_Ico {t : tanVelocity} (ht : ¬(t.vn = 0 ∧ t.ve = 0)) :
    ∃ h, getHeading t = some h ∧ 0 ≤ h ∧ h < 360 := by
  rcases eq_or_ne t.vn 0 with hvn | hvn
  · have hve : t.ve ≠ 0 := fun h0 => ht ⟨hvn, h0⟩
    rcases hve.lt_or_lt with hlt | hgt
    · exact ⟨270, getHeading_vn_zero_neg hvn hlt, by norm_num, by norm_num⟩
    · exact ⟨90, getHeading_vn_zero_pos hvn hgt, by norm_num, by norm_num⟩
  · have hub : radToDeg (Real.arctan (t.ve / t.vn)) < 90 :=
      radToDeg_lt_90 (Real.arctan_lt_pi_div_two _)
    have hlb : -90 < radToDeg (Real.arctan (t.ve / t.vn)) :=
      neg_90_lt_radToDeg (Real.neg_pi_div_two_lt_arctan _)
    rcases lt_or_le (radToDeg (Real.arctan (t.ve / t.vn))) 0 with hneg | hpos
    · refine ⟨radToDeg (Real.arctan (t.ve / t.vn)) + 360, ?_, by linarith, by linarith⟩
      rw [getHeading_eq_of_vn_ne hvn, if_pos hneg]
    · refine ⟨radToDeg (Real.arctan (t.ve / t.vn)), ?_, hpos, by linarith⟩
      rw [getHeading_eq_of_vn_ne hvn, if_neg (not_lt.mpr hpos)]

/-! ## Claim theorems (first group) -/

/-- Claim C2: for every ECEF velocity V and every reference latitude and
longitude, NEDtoECEF (ECEFToNED V lat lon) lat lon equals V exactly over
the exact-real embedding. -/
theorem claim_C2 (V : ECEFVelocity) (lat lon : ℝ) :
    NEDtoECEF (ECEFToNED V lat lon) lat lon = V := by
  have h1 := Real.sin_sq_add_cos_sq (degToRad lat)
  have h2 := Real.sin_sq_add_cos_sq (degToRad lon)
  ext
  · simp only [NEDtoECEF, ECEFToNED]
    linear_combination (V.vx * Real.cos (degToRad lon) ^ 2 +
      V.vy * Real.sin (degToRad lon) * Real.cos (degToRad lon)) * h1 + V.vx * h2
  · simp only [NEDtoECEF, ECEFToNED]
    linear_combination (V.vx * Real.sin (degToRad lon) * Real.cos (degToRad lon) +
      V.vy * Real.sin (degToRad lon) ^ 2) * h1 + V.vy * h2
  · simp only [NEDtoECEF, ECEFToNED]
    linear_combination V.vz * h1

/-- Claim C10: the ECEFToNED rotation preserves the Euclidean norm exactly
over the exact-real embedding (the direction cosine matrix is orthogonal),
and so does NEDtoECEF in the opposite direction. -/
theorem claim_C10 (V : ECEFVelocity) (w : NEDVelocity) (lat lon : ℝ) :
    (ECEFToNED V lat lon).vn ^ 2 + (ECEFToNED V lat lon).ve ^ 2 +
        (ECEFToNED V lat lon).vd ^ 2 = V.vx ^ 2 + V.vy ^ 2 + V.vz ^ 2 ∧
      (NEDtoECEF w lat lon).vx ^ 2 + (NEDtoECEF w lat lon).vy ^ 2 +
        (NEDtoECEF w lat lon).vz ^ 2 = w.vn ^ 2 + w.ve ^ 2 + w.vd ^ 2 := by
  have h1 := Real.sin_sq_add_cos_sq (degToRad lat)
  have h2 := Real.sin_sq_add_cos_sq (degToRad lon)
  constructor
  · simp only [ECEFToNED]
    linear_combination (V.vx ^ 2 * Real.cos (degToRad lon) ^ 2 +
        V.vy ^ 2 * Real.sin (degToRad lon) ^ 2 + V.vz ^ 2 +
        2 * V.vx * V.vy * Real.sin (degToRad lon) * Real.cos (degToRad lon)) * h1 +
      (V.vx ^ 2 + V.vy ^ 2) * h2
  · simp only [NEDtoECEF]
    linear_combination (w.vn ^ 2 + w.vd ^ 2) * h1 +
      (w.vn ^ 2 * Real.sin (degToRad lat) ^ 2 + w.ve ^ 2 +
        w.vd ^ 2 * Real.cos (degToRad lat) ^ 2 +
        2 * w.vn * w.vd * Real.sin (degToRad lat) * Real.cos (degToRad lat)) * h2

/-- Claim C9: radiusOfCurvature computes R / sqrt(1 - e^2 sin^2 phi) and,
for every latitude in the closed interval from -pi/2 to pi/2, returns a
positive number: the radicand is bounded below by 1 - e^2, which is
positive. -/
theorem claim_C9 (lat : ℝ) (h1 : -(Real.pi / 2) ≤ lat) (h2 : lat ≤ Real.pi / 2) :
    radiusOfCurvature lat =
        RADIUS / Real.sqrt (1 - FIRST_ECCENTRICITY ^ 2 * Real.sin lat ^ 2) ∧
      0 < radiusOfCurvature lat ∧
      1 - FIRST_ECCENTRICITY ^ 2 ≤ 1 - FIRST_ECCENTRICITY ^ 2 * Real.sin lat ^ 2 ∧
      0 < 1 - FIRST_ECCENTRICITY ^ 2 := by
  have hsin : Real.sin lat ^ 2 ≤ 1 := Real.sin_sq_le_one lat
  have hlt := first_ecc_sq_lt_one
  have he0 := sq_nonneg FIRST_ECCENTRICITY
  have hs0 := sq_nonneg (Real.sin lat)
  have hpos : 0 < 1 - FIRST_ECCENTRICITY ^ 2 * Real.sin lat ^ 2 := by nlinarith
  refine ⟨rfl, ?_, by nlinarith, by linarith⟩
  rw [radiusOfCurvature]
  apply div_pos
  · norm_num [RADIUS]
  · exact Real.sqrt_pos.mpr hpos

/-- Witness for claim C9 at latitude 0. -/
theorem claim_C9_witness : 0 < radiusOfCurvature 0 :=
  (claim_C9 0 (by nlinarith [Real.pi_pos]) (by nlinarith [Real.pi_pos])).2.1

/-- Claim C8: for every value and every digit count at most 0 (including
negative counts), trimDecimalValue returns the value rounded to the
nearest integer (JS Math.round, which is floor(x + 1/2), agreeing with
Mathlib round). -/
theorem claim_C8 (v significantDigits : ℝ) (h : significantDigits ≤ 0) :
    trimDecimalValue v significantDigits = (round v : ℝ) := by
  have htr : jsTrunc significantDigits ≤ 0 := by
    rw [jsTrunc]
    split_ifs with h0
    · have hz : significantDigits = 0 := le_antisymm h h0
      simp [hz]
    · exact Int.ceil_le.mpr (by exact_mod_cast h)
  simp only [trimDecimalValue, if_neg (not_lt.mpr htr)]
  rw [jsRound, round_eq]

/-- Witness for claim C8 at value 5/2 and digit count -3. -/
theorem claim_C8_witness :
    (-3 : ℝ) ≤ 0 ∧ trimDecimalValue (5 / 2) (-3) = ((round ((5 : ℝ) / 2) : ℤ) : ℝ) :=
  ⟨by norm_num, claim_C8 (5 / 2) (-3) (by norm_num)⟩

/-- Claim C7: getGroundSpeed computes the exact Euclidean norm of the
(vn, ve) pair, does not depend on the down or up component, is invariant
under magnitude-preserving changes of the (vn, ve) pair, and sends the
zero velocity to speed 0. -/
theorem claim_C7 :
    (∀ t : tanVelocity, getGroundSpeed t = Real.sqrt (t.vn ^ 2 + t.ve ^ 2)) ∧
      (∀ vn ve vd vd2 : ℝ,
        getGroundSpeed (NEDVelocity.toTan (NEDVelocity.mk vn ve vd)) =
          getGroundSpeed (NEDVelocity.toTan (NEDVelocity.mk vn ve vd2))) ∧
      (∀ vn ve vu : ℝ,
        getGroundSpeed (ENUVelocity.toTan (ENUVelocity.mk vn ve vu)) =
          getGroundSpeed (NEDVelocity.toTan (NEDVelocity.mk vn ve (-vu)))) ∧
      (∀ t u : tanVelocity, t.vn ^ 2 + t.ve ^ 2 = u.vn ^ 2 + u.ve ^ 2 →
        getGroundSpeed t = getGroundSpeed u) ∧
      getGroundSpeed (tanVelocity.mk 0 0) = 0 := by
  have hg : ∀ t : tanVelocity, getGroundSpeed t = Real.sqrt (t.vn ^ 2 + t.ve ^ 2) :=
    fun t => hypot_pair t.vn t.ve
  refine ⟨hg, fun vn ve vd vd2 => rfl, fun vn ve vu => rfl, ?_, ?_⟩
  · intro t u h
    rw [hg, hg, h]
  · rw [hg]
    norm_num

/-- Witness for claim C7: the rotation-invariance part applied to the
concrete magnitude-preserving pair (3, 4) and (5, 0). -/
theorem claim_C7_witness :
    (3 : ℝ) ^ 2 + (4 : ℝ) ^ 2 = (5 : ℝ) ^ 2 + (0 : ℝ) ^ 2 ∧
      getGroundSpeed (tanVelocity.mk 3 4) = getGroundSpeed (tanVelocity.mk 5 0) :=
  ⟨by norm_num, claim_C7.2.2.2.1 (tanVelocity.mk 3 4) (tanVelocity.mk 5 0) (by norm_num)⟩

/-- Claim C5: for every tangent velocity whose components are not both
zero, getHeading returns a value in the interval from 0 inclusive to 360
exclusive; the pure-north vector has heading 0 and the pure-east vector
has heading 90. -/
theorem claim_C5 :
    (∀ t : tanVelocity, ¬(t.vn = 0 ∧ t.ve = 0) →
        ∃ h, getHeading t = some h ∧ 0 ≤ h ∧ h < 360) ∧
      getHeading (tanVelocity.mk 1 0) = some 0 ∧
      getHeading (tanVelocity.mk 0 1) = some 90 := by
  refine ⟨fun t ht => getHeading_mem_Ico ht, ?_, getHeading_vn_zero_pos rfl (by norm_num)⟩
  rw [getHeading_eq_of_vn_ne (t := tanVelocity.mk 1 0) (by norm_num)]
  norm_num [radToDeg_zero]

/-- Witness for claim C5: the range part applied at the concrete tangent
velocity (1, 1). -/
theorem claim_C5_witness :
    ∃ h, getHeading (tanVelocity.mk 1 1) = some h ∧ 0 ≤ h ∧ h < 360 :=
  claim_C5.1 (tanVelocity.mk 1 1) (by norm_num)

/-- Claim C6: getHeading returns NaN (modelled by none) exactly when both
components are zero; when vn = 0 and ve is positive the IEEE infinity
resolves to heading 90, and when vn = 0 and ve is negative it resolves to
heading 270. -/
theorem claim_C6 :
    (∀ t : tanVelocity, getHeading t = none ↔ t.vn = 0 ∧ t.ve = 0) ∧
      (∀ t : tanVelocity, t.vn = 0 → 0 < t.ve → getHeading t = some 90) ∧
      (∀ t : tanVelocity, t.vn = 0 → t.ve < 0 → getHeading t = some 270) := by
  refine ⟨fun t => ⟨?_, fun h => getHeading_zero_zero h.1 h.2⟩,
    fun t h1 h2 => getHeading_vn_zero_pos h1 h2,
    fun t h1 h2 => getHeading_vn_zero_neg h1 h2⟩
  intro hnone
  by_contra hne
  obtain ⟨h, hh, -, -⟩ := getHeading_mem_Ico hne
  rw [hnone] at hh
  exact Option.noConfusion hh

/-- Witness for claim C6: the two implication parts applied at the
concrete tangent velocities (0, 2) and (0, -2). -/
theorem claim_C6_witness :
    getHeading (tanVelocity.mk 0 2) = some 90 ∧
      getHeading (tanVelocity.mk 0 (-2)) = some 270 :=
  ⟨claim_C6.2.1 (tanVelocity.mk 0 2) rfl (by norm_num),
    claim_C6.2.2 (tanVelocity.mk 0 (-2)) rfl (by norm_num)⟩

/-! ## Evaluation of the position round trip at the antimeridian -/

theorem degToRad_zero : degToRad 0 = 0 := by
  rw [degToRad]
  ring

theorem degToRad_180 : degToRad 180 = Real.pi := by
  rw [degToRad]
  ring

theorem llaToECEF_at_antimeridian :
    LLAToECEF (LLAPoint.mk 0 180 0) = ECEFPoint.mk (-RADIUS) 0 0 := by
  simp [LLAToECEF, degToRad_zero, degToRad_180, radiusOfCurvature]

theorem ecefToLLA_at_minus_radius :
    ECEFToLLA (ECEFPoint.mk (-RADIUS) 0 0) = LLAPoint.mk 0 0 0 := by
  have hp : hypot [-RADIUS, 0] = RADIUS := by
    rw [hypot_pair, show (-RADIUS) ^ 2 + (0 : ℝ) ^ 2 = RADIUS ^ 2 by ring]
    exact Real.sqrt_sq (by norm_num [RADIUS])
  simp [ECEFToLLA, hp, radiusOfCurvature, Real.arctan_zero, radToDeg_zero]

/-- Claim C1 asserts the round trip ECEFToLLA (LLAToECEF p) recovers p to
within 1e-4 m and 1e-7 degrees for every point with altitude at least 0
and latitude strictly inside the poles, with any real longitude.  The
code violates this: the longitude is recovered with the single-argument
arctangent of y / x, which loses the quadrant, so the surface point at
latitude 0 and longitude 180 comes back with longitude 0 (evaluated
exactly here), 180 degrees away from the claimed tolerance. -/
theorem claim_C1 :
    ECEFToLLA (LLAToECEF (LLAPoint.mk 0 180 0)) = LLAPoint.mk 0 0 0 ∧
      ¬ |(ECEFToLLA (LLAToECEF (LLAPoint.mk 0 180 0))).lon - 180| ≤ 1e-7 := by
  rw [llaToECEF_at_antimeridian, ecefToLLA_at_minus_radius]
  norm_num

/-! ## Rigorous rational bounds on sine and cosine

Order-12 Taylor partial sums with the explicit remainder bound inherited
from the complex exponential, evaluated at rational endpoints and carried
through monotonicity and the double-angle formulas.  These are used to
check the two concrete numeric scenarios of the specification. -/

/-- Degree-10 Taylor polynomial of cosine. -/
def cosP (x : ℝ) : ℝ :=
  1 - x ^ 2 / 2 + x ^ 4 / 24 - x ^ 6 / 720 + x ^ 8 / 40320 - x ^ 10 / 3628800

/-- Degree-11 Taylor polynomial of sine. -/
def sinP (x : ℝ) : ℝ :=
  x - x ^ 3 / 6 + x ^ 5 / 120 - x ^ 7 / 5040 + x ^ 9 / 362880 - x ^ 11 / 39916800

theorem taylor_sum_split (x : ℝ) :
    (∑ m ∈ Finset.range 12, ((x : ℂ) * Complex.I) ^ m / m.factorial) =
      Complex.ofReal (cosP x) + Complex.ofReal (sinP x) * Complex.I := by
  simp only [cosP, sinP, Finset.sum_range_succ, Finset.range_zero, Finset.sum_empty,
    Nat.factorial, pow_succ, pow_zero, Nat.cast_ofNat, Nat.cast_one, zero_add]
  apply Complex.ext <;> simp [div_eq_mul_inv, Complex.normSq] <;> ring_nf

theorem exp_I_taylor12 (x : ℝ) (hx : |x| ≤ 1) :
    Complex.abs (Complex.exp (x * Complex.I) -
        ∑ m ∈ Finset.range 12, ((x : ℂ) * Complex.I) ^ m / m.factorial) ≤
      |x| ^ 12 * (13 / 5748019200) := by
  have habs : Complex.abs ((x : ℂ) * Complex.I) = |x| := by
    rw [map_mul, Complex.abs_ofReal, Complex.abs_I, mul_one]
  have h := @Complex.exp_bound ((x : ℂ) * Complex.I) (by rw [habs]; exact hx) 12
    (by norm_num)
  rw [habs] at h
  refine le_trans h ?_
  norm_num [Nat.factorial]

theorem cos_taylor12 {x : ℝ} (hx : |x| ≤ 1) :
    |Real.cos x - cosP x| ≤ |x| ^ 12 * (13 / 5748019200) := by
  have hre : Real.cos x - cosP x =
      (Complex.exp (x * Complex.I) -
        ∑ m ∈ Finset.range 12, ((x : ℂ) * Complex.I) ^ m / m.factorial).re := by
    rw [Complex.sub_re, Complex.exp_ofReal_mul_I_re, taylor_sum_split]
    simp
  rw [hre]
  exact le_trans (Complex.abs_re_le_abs _) (exp_I_taylor12 x hx)

theorem sin_taylor12 {x : ℝ} (hx : |x| ≤ 1) :
    |Real.sin x - sinP x| ≤ |x| ^ 12 * (13 / 5748019200) := by
  have him : Real.sin x - sinP x =
      (Complex.exp (x * Complex.I) -
        ∑ m ∈ Finset.range 12, ((x : ℂ) * Complex.I) ^ m / m.factorial).im := by
    rw [Complex.sub_im, Complex.exp_ofReal_mul_I_im, taylor_sum_split]
    simp
  rw [him]
  exact le_trans (Complex.abs_im_le_abs _) (exp_I_taylor12 x hx)

theorem cos_ge_taylor {r : ℝ} (h0 : 0 ≤ r) (h1 : r ≤ 1) :
    cosP r - r ^ 12 * (13 / 5748019200) ≤ Real.cos r := by
  have h := @cos_taylor12 r (by rwa [abs_of_nonneg h0])
  rw [abs_of_nonneg h0] at h
  have h2 := (abs_le.mp h).1
  linarith

theorem cos_le_taylor {r : ℝ} (h0 : 0 ≤ r) (h1 : r ≤ 1) :
    Real.cos r ≤ cosP r + r ^ 12 * (13 / 5748019200) := by
  have h := @cos_taylor12 r (by rwa [abs_of_nonneg h0])
  rw [abs_of_nonneg h0] at h
  have h2 := (abs_le.mp h).2
  linarith

theorem sin_ge_taylor {r : ℝ} (h0 : 0 ≤ r) (h1 : r ≤ 1) :
    sinP r - r ^ 12 * (13 / 5748019200) ≤ Real.sin r := by
  have h := @sin_taylor12 r (by rwa [abs_of_nonneg h0])
  rw [abs_of_nonneg h0] at h
  have h2 := (abs_le.mp h).1
  linarith

theorem sin_le_taylor {r : ℝ} (h0 : 0 ≤ r) (h1 : r ≤ 1) :
    Real.sin r ≤ sinP r + r ^ 12 * (13 / 5748019200) := by
  have h := @sin_taylor12 r (by rwa [abs_of_nonneg h0])
  rw [abs_of_nonneg h0] at h
  have h2 := (abs_le.mp h).2
  linarith

theorem sin_bounds_of_mem {x lo hi sl sh : ℝ} (hx1 : lo ≤ x) (hx2 : x ≤ hi)
    (h0 : 0 ≤ lo) (h1 : hi ≤ 1)
    (hl : sl ≤ sinP lo - lo ^ 12 * (13 / 5748019200))
    (hh : sinP hi + hi ^ 12 * (13 / 5748019200) ≤ sh) :
    sl ≤ Real.sin x ∧ Real.sin x ≤ sh := by
  have hpi := Real.pi_gt_three
  have hlo1 : lo ≤ 1 := le_trans (le_trans hx1 hx2) h1
  have hs1 : Real.sin lo ≤ Real.sin x :=
    Real.sin_le_sin_of_le_of_le_pi_div_two (by linarith) (by linarith) hx1
  have hs2 : Real.sin x ≤ Real.sin hi :=
    Real.sin_le_sin_of_le_of_le_pi_div_two (by linarith) (by linarith) hx2
  have hg := sin_ge_taylor h0 hlo1
  have hle := sin_le_taylor (le_trans h0 (le_trans hx1 hx2)) h1
  exact ⟨le_trans hl (le_trans hg hs1), le_trans hs2 (le_trans hle hh)⟩

theorem cos_bounds_of_mem {x lo hi cl ch : ℝ} (hx1 : lo ≤ x) (hx2 : x ≤ hi)
    (h0 : 0 ≤ lo) (h1 : hi ≤ 1)
    (hl : cl ≤ cosP hi - hi ^ 12 * (13 / 5748019200))
    (hh : cosP lo + lo ^ 12 * (13 / 5748019200) ≤ ch) :
    cl ≤ Real.cos x ∧ Real.cos x ≤ ch := by
  have hpi := Real.pi_gt_three
  have hlo1 : lo ≤ 1 := le_trans (le_trans hx1 hx2) h1
  have hx0 : 0 ≤ x := le_trans h0 hx1
  have hc1 : Real.cos x ≤ Real.cos lo :=
    Real.cos_le_cos_of_nonneg_of_le_pi h0 (by linarith) hx1
  have hc2 : Real.cos hi ≤ Real.cos x :=
    Real.cos_le_cos_of_nonneg_of_le_pi hx0 (by linarith) hx2
  have hg := cos_ge_taylor (le_trans hx0 hx2) h1
  have hle := cos_le_taylor h0 hlo1
  exact ⟨le_trans hl (le_trans hg hc2), le_trans hc1 (le_trans hle hh)⟩

/-! ## Concrete trigonometric bounds for the scenario angles -/

theorem latA_mem :
    0.495999884136512 ≤ degToRad 28.4187 ∧ degToRad 28.4187 ≤ 0.495999884136513 := by
  rw [degToRad]
  constructor <;> nlinarith [Real.pi_gt_d20, Real.pi_lt_d20]

theorem lonBh_mem :
    0.711930273863999 ≤ degToRad 81.5812 / 2 ∧
      degToRad 81.5812 / 2 ≤ 0.711930273864001 := by
  rw [degToRad]
  constructor <;> nlinarith [Real.pi_gt_d20, Real.pi_lt_d20]

theorem sinA_mem : 0.475911280415 ≤ Real.sin (degToRad 28.4187) ∧
    Real.sin (degToRad 28.4187) ≤ 0.475911280419 :=
  sin_bounds_of_mem latA_mem.1 latA_mem.2 (by norm_num) (by norm_num)
    (by norm_num [sinP]) (by norm_num [sinP])

theorem cosA_mem : 0.879493293418 ≤ Real.cos (degToRad 28.4187) ∧
    Real.cos (degToRad 28.4187) ≤ 0.879493293423 :=
  cos_bounds_of_mem latA_mem.1 latA_mem.2 (by norm_num) (by norm_num)
    (by norm_num [cosP]) (by norm_num [cosP])

theorem sinBh_mem : 0.653296401669 ≤ Real.sin (degToRad 81.5812 / 2) ∧
    Real.sin (degToRad 81.5812 / 2) ≤ 0.653296402069 :=
  sin_bounds_of_mem lonBh_mem.1 lonBh_mem.2 (by norm_num) (by norm_num)
    (by norm_num [sinP]) (by norm_num [sinP])

theorem cosBh_mem : 0.757102246068 ≤ Real.cos (degToRad 81.5812 / 2) ∧
    Real.cos (degToRad 81.5812 / 2) ≤ 0.757102246468 :=
  cos_bounds_of_mem lonBh_mem.1 lonBh_mem.2 (by norm_num) (by norm_num)
    (by norm_num [cosP]) (by norm_num [cosP])

theorem sinB_mem : 0.989224346103 ≤ Real.sin (degToRad 81.5812) ∧
    Real.sin (degToRad 81.5812) ≤ 0.989224347232 := by
  have h2t : degToRad 81.5812 = 2 * (degToRad 81.5812 / 2) := by ring
  have hs := sinBh_mem
  have hc := cosBh_mem
  rw [h2t, Real.sin_two_mul]
  constructor <;> nlinarith [hs.1, hs.2, hc.1, hc.2]

theorem cosB_mem : 0.146407622002 ≤ Real.cos (degToRad 81.5812) ∧
    Real.cos (degToRad 81.5812) ≤ 0.146407623214 := by
  have h2t : degToRad 81.5812 = 2 * (degToRad 81.5812 / 2) := by ring
  have hc := cosBh_mem
  rw [h2t, Real.cos_two_mul]
  constructor <;> nlinarith [hc.1, hc.2]

/-! ## Bounds on the radius of curvature at the scenario latitude -/

theorem first_ecc_sq_val :
    FIRST_ECCENTRICITY ^ 2 = 595514447126000000000 / 88957371407509362414969 := by
  rw [first_ecc_sq_eq, POLAR_RADIUS, FLATTENING, RADIUS]
  norm_num

theorem sqrtA_mem :
    0.999241602175 ≤
        Real.sqrt (1 - FIRST_ECCENTRICITY ^ 2 * Real.sin (degToRad 28.4187) ^ 2) ∧
      Real.sqrt (1 - FIRST_ECCENTRICITY ^ 2 * Real.sin (degToRad 28.4187) ^ 2) ≤
        0.999241602179 := by
  have hs := sinA_mem
  have hsq1 : Real.sin (degToRad 28.4187) ^ 2 ≤ (0.475911280419 : ℝ) ^ 2 := by
    nlinarith [hs.1, hs.2]
  have hsq2 : ((0.475911280415 : ℝ)) ^ 2 ≤ Real.sin (degToRad 28.4187) ^ 2 := by
    nlinarith [hs.1, hs.2]
  have h1 : ((0.999241602175 : ℝ)) ^ 2 ≤
      1 - FIRST_ECCENTRICITY ^ 2 * Real.sin (degToRad 28.4187) ^ 2 := by
    rw [first_ecc_sq_val]
    linarith [hsq1]
  have h2 : 1 - FIRST_ECCENTRICITY ^ 2 * Real.sin (degToRad 28.4187) ^ 2 ≤
      ((0.999241602179 : ℝ)) ^ 2 := by
    rw [first_ecc_sq_val]
    linarith [hsq2]
  constructor
  · calc (0.999241602175 : ℝ) = Real.sqrt ((0.999241602175 : ℝ) ^ 2) :=
        (Real.sqrt_sq (by norm_num)).symm
      _ ≤ _ := Real.sqrt_le_sqrt h1
  · calc Real.sqrt (1 - FIRST_ECCENTRICITY ^ 2 * Real.sin (degToRad 28.4187) ^ 2) ≤
        Real.sqrt ((0.999241602179 : ℝ) ^ 2) := Real.sqrt_le_sqrt h2
      _ = 0.999241602179 := Real.sqrt_sq (by norm_num)

theorem NA_mem : 6382977.8364 ≤ radiusOfCurvature (degToRad 28.4187) ∧
    radiusOfCurvature (degToRad 28.4187) ≤ 6382977.8366 := by
  obtain ⟨h1, h2⟩ := sqrtA_mem
  have hq : (0 : ℝ) <
      Real.sqrt (1 - FIRST_ECCENTRICITY ^ 2 * Real.sin (degToRad 28.4187) ^ 2) := by
    linarith
  rw [radiusOfCurvature, RADIUS]
  constructor
  · rw [le_div_iff₀ hq]
    linarith
  · rw [div_le_iff₀ hq]
    linarith

/-- Interval product bound for nonnegative intervals. -/
theorem prod_mem {x y xl xu yl yu : ℝ} (hx1 : xl ≤ x) (hx2 : x ≤ xu)
    (hy1 : yl ≤ y) (hy2 : y ≤ yu) (h1 : 0 ≤ xl) (h2 : 0 ≤ yl) :
    xl * yl ≤ x * y ∧ x * y ≤ xu * yu := by
  constructor <;> nlinarith

/-! ## Claim theorems (second group) -/

/-- Claim C3: LLAToECEF converts latitude and longitude from degrees to
radians and returns the unrounded closed-form projection x, y, z in
meters; at the concrete surface point (28.4187, -81.5812, 33) the result
matches the quoted coordinates (verified here to within one centimeter,
which pins all the quoted digits except rounding of the last one). -/
theorem claim_C3 :
    (∀ p : LLAPoint,
        LLAToECEF p = ECEFPoint.mk
          ((radiusOfCurvature (degToRad p.lat) + p.alt) * Real.cos (degToRad p.lat) *
            Real.cos (degToRad p.lon))
          ((radiusOfCurvature (degToRad p.lat) + p.alt) * Real.cos (degToRad p.lat) *
            Real.sin (degToRad p.lon))
          ((radiusOfCurvature (degToRad p.lat) * (POLAR_RADIUS ^ 2 / RADIUS ^ 2) + p.alt) *
            Real.sin (degToRad p.lat))) ∧
      |(LLAToECEF (LLAPoint.mk 28.4187 (-81.5812) 33)).x - 821905.3405| < 1 / 100 ∧
      |(LLAToECEF (LLAPoint.mk 28.4187 (-81.5812) 33)).y + 5553322.6958| < 1 / 100 ∧
      |(LLAToECEF (LLAPoint.mk 28.4187 (-81.5812) 33)).z - 3017411.1335| < 1 / 100 := by
  have hN := NA_mem
  have hcA := cosA_mem
  have hsA := sinA_mem
  have hsB := sinB_mem
  have hcB := cosB_mem
  have hneg : degToRad (-81.5812) = -degToRad 81.5812 := by
    rw [degToRad, degToRad]
    ring
  have pcc := prod_mem hcA.1 hcA.2 hcB.1 hcB.2 (by norm_num) (by norm_num)
  have pcs := prod_mem hcA.1 hcA.2 hsB.1 hsB.2 (by norm_num) (by norm_num)
  have pNcc := prod_mem hN.1 hN.2 pcc.1 pcc.2 (by norm_num) (by norm_num)
  have pNcs := prod_mem hN.1 hN.2 pcs.1 pcs.2 (by norm_num) (by norm_num)
  have pNs := prod_mem hN.1 hN.2 hsA.1 hsA.2 (by norm_num) (by norm_num)
  have hK : POLAR_RADIUS ^ 2 / RADIUS ^ 2 = ((297257223563 : ℝ) / 298257223563) ^ 2 := by
    rw [POLAR_RADIUS, FLATTENING, RADIUS]
    norm_num
  refine ⟨fun p => rfl, ?_, ?_, ?_⟩
  · have hx : (LLAToECEF (LLAPoint.mk 28.4187 (-81.5812) 33)).x =
        (radiusOfCurvature (degToRad 28.4187) + 33) * Real.cos (degToRad 28.4187) *
          Real.cos (degToRad (-81.5812)) := rfl
    rw [hx, hneg, Real.cos_neg, abs_lt]
    constructor <;> linarith [pNcc.1, pNcc.2, pcc.1, pcc.2]
  · have hy : (LLAToECEF (LLAPoint.mk 28.4187 (-81.5812) 33)).y =
        (radiusOfCurvature (degToRad 28.4187) + 33) * Real.cos (degToRad 28.4187) *
          Real.sin (degToRad (-81.5812)) := rfl
    rw [hy, hneg, Real.sin_neg, abs_lt]
    constructor <;> linarith [pNcs.1, pNcs.2, pcs.1, pcs.2]
  · have hz : (LLAToECEF (LLAPoint.mk 28.4187 (-81.5812) 33)).z =
        (radiusOfCurvature (degToRad 28.4187) * (POLAR_RADIUS ^ 2 / RADIUS ^ 2) + 33) *
          Real.sin (degToRad 28.4187) := rfl
    rw [hz, hK, abs_lt]
    constructor <;> linarith [pNs.1, pNs.2, hsA.1, hsA.2]

/-- Claim C4: ECEFToNED converts the reference latitude and longitude from
degrees to radians internally and evaluates the direction cosine matrix;
as a total function on the reals it has no failure mode (the equation
below holds for all finite inputs); at the concrete scenario the result
matches the quoted NED components (verified here to within 1/1000). -/
theorem claim_C4 :
    (∀ (v : ECEFVelocity) (lat lon : ℝ),
        ECEFToNED v lat lon = NEDVelocity.mk
          (-v.vx * Real.sin (degToRad lat) * Real.cos (degToRad lon) -
            v.vy * Real.sin (degToRad lat) * Real.sin (degToRad lon) +
            v.vz * Real.cos (degToRad lat))
          (-v.vx * Real.sin (degToRad lon) + v.vy * Real.cos (degToRad lon))
          (-v.vx * Real.cos (degToRad lat) * Real.cos (degToRad lon) -
            v.vy * Real.cos (degToRad lat) * Real.sin (degToRad lon) -
            v.vz * Real.sin (degToRad lat))) ∧
      |(ECEFToNED (ECEFVelocity.mk 82.34 (-554.45) 301.32) 28.4187 (-81.5812)).vn +
          1.7539| < 1 / 1000 ∧
      |(ECEFToNED (ECEFVelocity.mk 82.34 (-554.45) 301.32) 28.4187 (-81.5812)).ve -
          0.277| < 1 / 1000 ∧
      |(ECEFToNED (ECEFVelocity.mk 82.34 (-554.45) 301.32) 28.4187 (-81.5812)).vd +
          636.3845| < 1 / 1000 := by
  have hsA := sinA_mem
  have hcA := cosA_mem
  have hsB := sinB_mem
  have hcB := cosB_mem
  have hneg : degToRad (-81.5812) = -degToRad 81.5812 := by
    rw [degToRad, degToRad]
    ring
  have psc := prod_mem hsA.1 hsA.2 hcB.1 hcB.2 (by norm_num) (by norm_num)
  have pss := prod_mem hsA.1 hsA.2 hsB.1 hsB.2 (by norm_num) (by norm_num)
  have pcc := prod_mem hcA.1 hcA.2 hcB.1 hcB.2 (by norm_num) (by norm_num)
  have pcs := prod_mem hcA.1 hcA.2 hsB.1 hsB.2 (by norm_num) (by norm_num)
  refine ⟨fun v lat lon => rfl, ?_, ?_, ?_⟩
  · have hvn : (ECEFToNED (ECEFVelocity.mk 82.34 (-554.45) 301.32) 28.4187 (-81.5812)).vn =
        -(82.34 : ℝ) * Real.sin (degToRad 28.4187) * Real.cos (degToRad (-81.5812)) -
          (-554.45 : ℝ) * Real.sin (degToRad 28.4187) * Real.sin (degToRad (-81.5812)) +
          (301.32 : ℝ) * Real.cos (degToRad 28.4187) := rfl
    rw [hvn, hneg, Real.cos_neg, Real.sin_neg, abs_lt]
    constructor <;> linarith [psc.1, psc.2, pss.1, pss.2, hcA.1, hcA.2]
  · have hve : (ECEFToNED (ECEFVelocity.mk 82.34 (-554.45) 301.32) 28.4187 (-81.5812)).ve =
        -(82.34 : ℝ) * Real.sin (degToRad (-81.5812)) +
          (-554.45 : ℝ) * Real.cos (degToRad (-81.5812)) := rfl
    rw [hve, hneg, Real.cos_neg, Real.sin_neg, abs_lt]
    constructor <;> linarith [hsB.1, hsB.2, hcB.1, hcB.2]
  · have hvd : (ECEFToNED (ECEFVelocity.mk 82.34 (-554.45) 301.32) 28.4187 (-81.5812)).vd =
        -(82.34 : ℝ) * Real.cos (degToRad 28.4187) * Real.cos (degToRad (-81.5812)) -
          (-554.45 : ℝ) * Real.cos (degToRad 28.4187) * Real.sin (degToRad (-81.5812)) -
          (301.32 : ℝ) * Real.sin (degToRad 28.4187) := rfl
    rw [hvd, hneg, Real.cos_neg, Real.sin_neg, abs_lt]
    constructor <;> linarith [pcc.1, pcc.2, pcs.1, pcs.2, hsA.1, hsA.2]

end EcefUtils
